import Mathlib

set_option maxRecDepth 40000

/-!
Verification of the Coldcard hardware simulator's bridge protocol engine
(`unix/simulator.py`): the monochrome (OLED, 128x64) and indexed (LCD,
320x240) display decoders, the LED status decoder, the key translator with
its pressed-key state, and the byte traffic on the key-out channel.

Modelling conventions:
* bytes and key codes are `Nat` code points (all device keys on the Mk4
  variant are ASCII, so `ch.encode()` is the single byte `ch`);
* the pixel buffer (`sdl2.ext.PixelView`) is a function `Nat → Nat → α`
  indexed row-then-column, colours abstracted to a type `α`;
* a Python byte-stream read of `n` bytes is `List.take n` on the remaining
  stream, an empty read being the empty list;
* a failing `assert` (or an uncaught exception) is an `Except.error`;
* the pressed-key `set()` is a duplicate-free `List Nat`; iteration order of
  `list(pressed)` is arbitrary, so theorems about it quantify over any
  permutation of the set's elements.
-/

/-- Protocol / runtime failures raised by the decoders (each constructor is
one `assert` or exception site in the source). -/
inductive ProtoErr
  | monoFrameLen   -- OLEDSimulator.new_contents: assert len(buf) == 1024
  | rectX          -- LCDSimulator.new_contents: assert X+w <= 320
  | rectY          -- LCDSimulator.new_contents: assert Y+h <= 240
  | payloadLen     -- LCDSimulator.new_contents: assert len(here) == sz
  | headerUnpack   -- struct.unpack of a header shorter than 8 bytes
  | fuelOut        -- artificial: loop fuel exhausted (never hit, see below)
deriving DecidableEq

/-- Point update of a pixel grid: `mv[r][c] = v`. -/
def updPix {α : Type} (mv : Nat → Nat → α) (r c : Nat) (v : α) : Nat → Nat → α :=
  fun r2 c2 => if r2 = r ∧ c2 = c then v else mv r2 c2

/-- Innermost loop of `OLEDSimulator.new_contents`: for one byte `val` of the
frame, bit `i` (LSB first, `mask = 0x01; mask <<= 1`) drives pixel
`mv[y+i][x]` to `fg`/`bg`. -/
def OLEDSimulator.bitLoop {α : Type} (fg bg : α) (val y x : Nat)
    (mv : Nat → Nat → α) : Nat → Nat → α :=
  (List.range 8).foldl
    (fun m i => updPix m (y + i) x (if val &&& (1 <<< i) ≠ 0 then fg else bg)) mv

/-- Middle loop: `for x in range(128)`, reading byte `buf[(y*128//8) + x]`. -/
def OLEDSimulator.colLoop {α : Type} (fg bg : α) (buf : List Nat) (y : Nat)
    (mv : Nat → Nat → α) : Nat → Nat → α :=
  (List.range 128).foldl
    (fun m x => OLEDSimulator.bitLoop fg bg (buf.getD (y * 128 / 8 + x) 0) y x m) mv

/-- Outer loop: `for y in range(0, 64, 8)`, i.e. `y = 8*b` for `b < 8`.
Decodes one full 1024-byte monochrome frame into the pixel buffer. -/
def OLEDSimulator.decodeFrame {α : Type} (fg bg : α) (buf : List Nat)
    (mv : Nat → Nat → α) : Nat → Nat → α :=
  (List.range 8).foldl (fun m b => OLEDSimulator.colLoop fg bg buf (8 * b) m) mv

/-- `OLEDSimulator.new_contents`: one read (`data`); empty read is a no-op;
otherwise keep only the trailing `buf[-1024:]` slice and assert it is exactly
1024 bytes before decoding. -/
def OLEDSimulator.new_contents {α : Type} (fg bg : α) (mv : Nat → Nat → α)
    (data : List Nat) : Except ProtoErr (Nat → Nat → α) :=
  if data.isEmpty then Except.ok mv
  else
    let buf := data.drop (data.length - 1024)
    if buf.length = 1024 then Except.ok (OLEDSimulator.decodeFrame fg bg buf mv)
    else Except.error ProtoErr.monoFrameLen

/-- Codes of the string index `'123456789x0y'` used by
`OLEDSimulator.click_to_key`. -/
def click_chars : List Nat := [49, 50, 51, 52, 53, 54, 55, 56, 57, 120, 48, 121]

/-- `OLEDSimulator.click_to_key`: map a click to a keypad key via floor
division against `KEYPAD_LEFT = 52`, `KEYPAD_TOP = 216`, `KEYPAD_PITCH = 73`
(Python `//` on possibly negative operands floors, hence `Int.fdiv`). -/
def OLEDSimulator.click_to_key (x y : Int) : Option Nat :=
  let col := (x - 52).fdiv 73
  let row := (y - 216).fdiv 73
  if 0 ≤ row ∧ row < 4 then
    if 0 ≤ col ∧ col < 3 then some (click_chars.getD (row * 3 + col).toNat 0)
    else none
  else none

/-- Inner pixel loops of `LCDSimulator.new_contents` for one update record:
row-major over the rectangle, `mv[y][x] = palette[here[pos] & 0xf]`; the
16-entry palette is abstracted as a lookup function `pal`. -/
def LCDSimulator.writeRect {α : Type} (pal : Nat → α) (X Y w h : Nat)
    (here : List Nat) (mv : Nat → Nat → α) : Nat → Nat → α :=
  (List.range h).foldl
    (fun m dy =>
      (List.range w).foldl
        (fun m2 dx => updPix m2 (Y + dy) (X + dx) (pal (here.getD (dy * w + dx) 0 &&& 0xf)))
        m)
    mv

/-- Record loop of `LCDSimulator.new_contents`, written with explicit fuel so
that it stays a structural recursion: each iteration reads an 8-byte header
(`struct.unpack('<4H', ...)`, little-endian fields X, Y, w, h), checks the
source's asserts (`X>=0` and `Y>=0` hold trivially over `Nat`), reads the
`w*h`-byte payload and paints the rectangle.  One iteration consumes at least
8 bytes of the stream, so fuel `stream.length + 1` can never run out. -/
def LCDSimulator.loopF {α : Type} (pal : Nat → α) :
    Nat → (Nat → Nat → α) → List Nat → Except ProtoErr (Nat → Nat → α)
  | 0, _, _ => Except.error ProtoErr.fuelOut
  | fuel + 1, mv, stream =>
    let hdr := stream.take 8
    if hdr.isEmpty then Except.ok mv
    else
      match hdr with
      | [b0, b1, b2, b3, b4, b5, b6, b7] =>
        let X := b0 + 256 * b1
        let Y := b2 + 256 * b3
        let w := b4 + 256 * b5
        let h := b6 + 256 * b7
        if X + w ≤ 320 then
          if Y + h ≤ 240 then
            let sz := w * h
            let here := (stream.drop 8).take sz
            if here.length = sz then
              LCDSimulator.loopF pal fuel (LCDSimulator.writeRect pal X Y w h here mv)
                ((stream.drop 8).drop sz)
            else Except.error ProtoErr.payloadLen
          else Except.error ProtoErr.rectY
        else Except.error ProtoErr.rectX
      | _ => Except.error ProtoErr.headerUnpack

/-- `LCDSimulator.new_contents`: drain the buffered stream of update records
(`while 1: ...` until the header read comes back empty). -/
def LCDSimulator.new_contents {α : Type} (pal : Nat → α) (mv : Nat → Nat → α)
    (stream : List Nat) : Except ProtoErr (Nat → Nat → α) :=
  LCDSimulator.loopF pal (stream.length + 1) mv stream

/-- `LCDSimulator.click_to_key`: the source unconditionally returns `None`
("not planning to support, tedious"). -/
def LCDSimulator.click_to_key (x y : Int) : Option Nat :=
  none

/-- LED status decode from the session loop: `mask = (c >> 4) & 0xf`,
`lset = c & 0xf`, `active_set = mask & lset`. -/
def led_active_set (c : Nat) : Nat :=
  let mask := (c >>> 4) &&& 0xf
  let lset := c &&& 0xf
  mask &&& lset

/-- Codes of `'1234567890-=\`[];',./'` — the unshifted row of `shift_up`
(note the Python literal keeps the backslash: `\` + backtick are two
characters). -/
def shift_f : List Nat :=
  [49, 50, 51, 52, 53, 54, 55, 56, 57, 48, 45, 61, 92, 96, 91, 93, 59, 39, 44, 46, 47]

/-- Codes of the shifted row `'!@#$%^&*()_+|~:"<>?'` with braces, matching
`shift_f` position by position. -/
def shift_t : List Nat :=
  [33, 64, 35, 36, 37, 94, 38, 42, 40, 41, 95, 43, 124, 126, 123, 125, 58, 34, 60, 62, 63]

/-- `shift_up`: lowercase letters to uppercase, punctuation through the fixed
`f.find(ch)` / `t[idx]` substitution, everything else unchanged. -/
def shift_up (ch : Nat) : Nat :=
  if 97 ≤ ch ∧ ch ≤ 122 then ch - 32
  else
    match List.indexOf? ch shift_f with
    | some i => shift_t.getD i ch
    | none => ch

/-- Modelled from the spec: `../shared/charcodes.py` is not under `src/`, so
the Q1 ("larger keypad") key-code constants `KEY_NFC`, `KEY_QR`, `KEY_LAMP`
and the `scancode_remap` table built from `KEY_RIGHT` .. `KEY_F6` are opaque
parameters; the spec only says they are device-specific symbols. -/
structure Q1Chars where
  nfc : Nat
  qr : Nat
  lamp : Nat
  remap : Nat → Option Nat

/-- `alt_up`: ALT+n / ALT+q / ALT+l map to the Q1 NFC / QR / lamp codes,
anything else to `None`. -/
def alt_up (qc : Q1Chars) (ch : Nat) : Option Nat :=
  if ch = 110 then some qc.nfc
  else if ch = 113 then some qc.qr
  else if ch = 108 then some qc.lamp
  else none

/-- Codes of `'9785'`: Mk4 arrow-key remap, indexed by
`scancode - SDL_SCANCODE_RIGHT` (scancodes RIGHT=79, LEFT=80, DOWN=81, UP=82). -/
def mk4_arrows : List Nat := [57, 55, 56, 53]

/-- Codes of the Mk4 device alphabet `'0123456789xy'`. -/
def mk4_alphabet : List Nat :=
  [48, 49, 50, 51, 52, 53, 54, 55, 56, 57, 120, 121]

/-- `send_event`: the pressed-key state machine.  A down event writes the key
code and records the key only if it was not already pressed; an up event
discards the key and writes the single `b'\0'` all-up marker when the set is
left empty. -/
def send_event (st : List Nat) (ch : Nat) (isDown : Bool) : List Nat × List Nat :=
  if isDown then
    if ch ∈ st then (st, []) else (st ++ [ch], [ch])
  else
    let st2 := st.erase ch
    (st2, if st2 = [] then [0] else [])

/-- The `SDL_MOUSEBUTTONUP` handler: `for ch in list(pressed): send_event(ch, False)`,
with `l` the (arbitrarily ordered) snapshot of the pressed set.  Returns the
final state and the concatenated bytes written. -/
def release_all (st : List Nat) : List Nat → List Nat × List Nat
  | [] => (st, [])
  | ch :: rest =>
    let r := send_event st ch false
    let rr := release_all r.1 rest
    (rr.1, r.2 ++ rr.2)

/-- Run a list of key down/up events through `send_event`, concatenating the
bytes written. -/
def run_events (st : List Nat) : List (Nat × Bool) → List Nat × List Nat
  | [] => (st, [])
  | (ch, d) :: rest =>
    let r := send_event st ch d
    let rr := run_events r.1 rest
    (rr.1, r.2 ++ rr.2)

/-- Number of all-up marker bytes in an output byte list. -/
def sentinel_count (out : List Nat) : Nat :=
  out.countP (fun b => b == 0)

/-- Number of steps of an event list at which the pressed set transitions
from non-empty to empty. -/
def empty_transitions (st : List Nat) : List (Nat × Bool) → Nat
  | [] => 0
  | (ch, d) :: rest =>
    (if st ≠ [] ∧ (send_event st ch d).1 = [] then 1 else 0) +
      empty_transitions (send_event st ch d).1 rest

/-- A trace is good when every down event carries a non-zero key code (all
device codes are non-zero; zero is reserved for the all-up marker) and every
up event releases a currently pressed key. -/
def good_trace (st : List Nat) : List (Nat × Bool) → Bool
  | [] => true
  | (ch, d) :: rest =>
    (if d then ch != 0 else decide (ch ∈ st)) && good_trace (send_event st ch d).1 rest

/-- Operator-level control actions dispatched by the control-key block of the
event loop (`quit`, NFC dump capture, snapshot, movie start/end). -/
inductive CtlAction
  | quit
  | nfcDump
  | snapshot
  | movieStart
  | movieEnd
deriving DecidableEq

/-- Result of handling one host event: new pressed set, bytes written to the
key-out channel, whether the session loop stops (`running = False` / break),
and the control actions dispatched. -/
structure HandleResult where
  st : List Nat
  out : List Nat
  quit : Bool
  actions : List CtlAction
deriving DecidableEq

/-- Bytes written by the control+'m' convenience macro:
`for i in range(30): numpad_tx.write(b'y\n'); numpad_tx.write(b'\n')`. -/
def ctrl_m_bytes : List Nat :=
  (List.range 30).foldl (fun acc _ => acc ++ ([121, 10] ++ [10])) []

/-- The `try: ch = chr(...)` block: `chr` succeeds exactly on code points
below `0x110000`; shift (`mod & 0x3`) applies `shift_up`, ALT (`mod & 0x300`)
applies `alt_up`, whose result may be `None`.  Outer `none` means the
`except` path was taken. -/
def try_char (qc : Q1Chars) (sym mod : Nat) : Option (Option Nat) :=
  if sym < 0x110000 then
    let c1 := if mod &&& 0x3 ≠ 0 then shift_up sym else sym
    some (if mod &&& 0x300 ≠ 0 then alt_up qc c1 else some c1)
  else none

/-- Character resolution for a key event, `try` and `except` paths combined.
Outer `none` models `continue` (event ignored); `some ch` carries the Python
`ch`, which itself may be `None` after an unmapped ALT combination.  The
`except` path uses `scancode = sym & 0xffff`, the Q1 `scancode_remap`, or the
Mk4 arrow remap `'9785'` for scancodes 79..82. -/
def resolve_char (is_q1 : Bool) (qc : Q1Chars) (sym mod : Nat) : Option (Option Nat) :=
  match try_char qc sym mod with
  | some c => some c
  | none =>
    let scancode := sym &&& 0xffff
    if is_q1 then
      match qc.remap scancode with
      | none => none
      | some c => some (some c)
    else if 79 ≤ scancode ∧ scancode ≤ 82 then
      some (some (mk4_arrows.getD (scancode - 79) 0))
    else none

/-- The `SDL_KEYUP`/`SDL_KEYDOWN` handler of the session loop (source lines
410-483).  Returns `none` where the Python would raise an uncaught exception
(`ch = None` reaching `ch in '0123456789xy'` or `None.encode()`); those
paths write nothing.  Mirrors, in order: character resolution; the
control-key-down action block (control+q/n/z/s/e/m, where the NFC branch
falls through to the later `continue`); the unconditional drop of control-key
events (line 466, which also swallows control+key down events not handled
above); the Mk4 ESC/Enter remap and device-alphabet filter; `send_event`. -/
def handle_key (is_q1 : Bool) (qc : Q1Chars) (sym mod : Nat) (isDown : Bool)
    (st : List Nat) : Option HandleResult :=
  match resolve_char is_q1 qc sym mod with
  | none => some ⟨st, [], false, []⟩
  | some ch =>
    if mod = 0x40 ∧ isDown = true then
      if ch = some 113 then some ⟨st, [], true, [CtlAction.quit]⟩
      else
        let acts := if ch = some 110 then [CtlAction.nfcDump] else []
        if ch = some 122 then some ⟨st, [], false, acts ++ [CtlAction.snapshot]⟩
        else if ch = some 115 then some ⟨st, [], false, acts ++ [CtlAction.movieStart]⟩
        else if ch = some 101 then some ⟨st, [], false, acts ++ [CtlAction.movieEnd]⟩
        else if ch = some 109 then some ⟨st, ctrl_m_bytes, false, acts⟩
        else some ⟨st, [], false, acts⟩
    else if mod = 0x40 then some ⟨st, [], false, []⟩
    else if is_q1 = false then
      let ch2 := if ch = some 27 then some 120 else if ch = some 13 then some 121 else ch
      match ch2 with
      | none => none
      | some c =>
        if c ∈ mk4_alphabet then
          some ⟨(send_event st c isDown).1, (send_event st c isDown).2, false, []⟩
        else some ⟨st, [], false, []⟩
    else
      match ch with
      | none => none
      | some c => some ⟨(send_event st c isDown).1, (send_event st c isDown).2, false, []⟩

/-- Host events seen by the session loop (display/LED channel reads never
touch the key-out channel and are omitted). -/
inductive SEvent
  | key (sym mod : Nat) (isDown : Bool)
  | mouseDown (x y : Int)
  | mouseUp
  | quitEv

/-- Dispatch of one host event: key events via `handle_key`; mouse down via
the variant's `click_to_key` then `send_event(ch, True)`; mouse up releases
every pressed key (iterated here in the model list's order); `SDL_QUIT`
stops the loop. -/
def handle_event (is_q1 : Bool) (qc : Q1Chars) : SEvent → List Nat → Option HandleResult
  | SEvent.key sym mod d, st => handle_key is_q1 qc sym mod d st
  | SEvent.mouseDown x y, st =>
    match (if is_q1 then LCDSimulator.click_to_key x y else OLEDSimulator.click_to_key x y) with
    | some c => some ⟨(send_event st c true).1, (send_event st c true).2, false, []⟩
    | none => some ⟨st, [], false, []⟩
  | SEvent.mouseUp, st => some ⟨(release_all st st).1, (release_all st st).2, false, []⟩
  | SEvent.quitEv, st => some ⟨st, [], true, []⟩

/-- A session run: handle events in order, stopping at a quit (`break`) or a
crash (which writes nothing further); returns the final pressed set and all
bytes written to the key-out channel. -/
def run_session (is_q1 : Bool) (qc : Q1Chars) : List SEvent → List Nat → List Nat × List Nat
  | [], st => (st, [])
  | ev :: rest, st =>
    match handle_event is_q1 qc ev st with
    | none => (st, [])
    | some r =>
      if r.quit then (r.st, r.out)
      else
        let k := run_session is_q1 qc rest r.st
        (k.1, r.out ++ k.2)

/-! ## Pixel-level characterisation of the monochrome decoder -/

theorem updPix_apply {α : Type} (mv : Nat → Nat → α) (r c : Nat) (v : α) (r2 c2 : Nat) :
    updPix mv r c v r2 c2 = if r2 = r ∧ c2 = c then v else mv r2 c2 := rfl

theorem and_shl_ne_zero (val i : Nat) : (val &&& (1 <<< i) ≠ 0) ↔ val.testBit i = true := by
  rw [Nat.one_shiftLeft, Nat.and_two_pow]
  cases h : val.testBit i <;> simp [(Nat.two_pow_pos i).ne']

theorem bitFoldAux {α : Type} (fg bg : α) (val y x : Nat) (n : Nat)
    (mv : Nat → Nat → α) (r c : Nat) :
    ((List.range n).foldl
      (fun m i => updPix m (y + i) x (if val &&& (1 <<< i) ≠ 0 then fg else bg)) mv) r c =
    if c = x ∧ y ≤ r ∧ r < y + n then
      (if val.testBit (r - y) then fg else bg)
    else mv r c := by
  induction n with
  | zero =>
    simp only [List.range_zero, List.foldl_nil]
    rw [if_neg (by omega)]
  | succ n ih =>
    rw [List.range_succ, List.foldl_append, List.foldl_cons, List.foldl_nil, updPix_apply, ih]
    by_cases h1 : r = y + n ∧ c = x
    · have hn : r - y = n := by omega
      rw [if_pos h1, if_pos (by omega : c = x ∧ y ≤ r ∧ r < y + (n + 1)), hn]
      simp only [and_shl_ne_zero]
    · rw [if_neg h1]
      by_cases hA : c = x ∧ y ≤ r ∧ r < y + n
      · rw [if_pos hA, if_pos (by omega : c = x ∧ y ≤ r ∧ r < y + (n + 1))]
      · rw [if_neg hA, if_neg (by omega)]

theorem bitLoop_apply {α : Type} (fg bg : α) (val y x : Nat)
    (mv : Nat → Nat → α) (r c : Nat) :
    OLEDSimulator.bitLoop fg bg val y x mv r c =
    if c = x ∧ y ≤ r ∧ r < y + 8 then
      (if val.testBit (r - y) then fg else bg)
    else mv r c :=
  bitFoldAux fg bg val y x 8 mv r c

theorem colFoldAux {α : Type} (fg bg : α) (buf : List Nat) (y : Nat) (n : Nat)
    (mv : Nat → Nat → α) (r c : Nat) :
    ((List.range n).foldl
      (fun m x => OLEDSimulator.bitLoop fg bg (buf.getD (y * 128 / 8 + x) 0) y x m) mv) r c =
    if c < n ∧ y ≤ r ∧ r < y + 8 then
      (if (buf.getD (y * 128 / 8 + c) 0).testBit (r - y) then fg else bg)
    else mv r c := by
  induction n with
  | zero =>
    simp only [List.range_zero, List.foldl_nil]
    rw [if_neg (by omega)]
  | succ n ih =>
    rw [List.range_succ, List.foldl_append, List.foldl_cons, List.foldl_nil, bitLoop_apply, ih]
    by_cases h1 : c = n ∧ y ≤ r ∧ r < y + 8
    · rw [if_pos h1, if_pos (by omega : c < n + 1 ∧ y ≤ r ∧ r < y + 8), h1.1]
    · rw [if_neg h1]
      by_cases hA : c < n ∧ y ≤ r ∧ r < y + 8
      · rw [if_pos hA, if_pos (by omega : c < n + 1 ∧ y ≤ r ∧ r < y + 8)]
      · rw [if_neg hA, if_neg (by omega)]

theorem colLoop_apply {α : Type} (fg bg : α) (buf : List Nat) (y : Nat)
    (mv : Nat → Nat → α) (r c : Nat) :
    OLEDSimulator.colLoop fg bg buf y mv r c =
    if c < 128 ∧ y ≤ r ∧ r < y + 8 then
      (if (buf.getD (y * 128 / 8 + c) 0).testBit (r - y) then fg else bg)
    else mv r c :=
  colFoldAux fg bg buf y 128 mv r c

theorem bandFoldAux {α : Type} (fg bg : α) (buf : List Nat) (n : Nat)
    (mv : Nat → Nat → α) (r c : Nat) :
    ((List.range n).foldl (fun m b => OLEDSimulator.colLoop fg bg buf (8 * b) m) mv) r c =
    if r < 8 * n ∧ c < 128 then
      (if (buf.getD (r / 8 * 128 + c) 0).testBit (r % 8) then fg else bg)
    else mv r c := by
  induction n with
  | zero =>
    simp only [List.range_zero, List.foldl_nil]
    rw [if_neg (by omega)]
  | succ n ih =>
    rw [List.range_succ, List.foldl_append, List.foldl_cons, List.foldl_nil, colLoop_apply, ih]
    by_cases h1 : c < 128 ∧ 8 * n ≤ r ∧ r < 8 * n + 8
    · have hidx : 8 * n * 128 / 8 + c = r / 8 * 128 + c := by omega
      have hbit : r - 8 * n = r % 8 := by omega
      rw [if_pos h1, if_pos (by omega : r < 8 * (n + 1) ∧ c < 128), hidx, hbit]
    · rw [if_neg h1]
      by_cases hA : r < 8 * n ∧ c < 128
      · rw [if_pos hA, if_pos (by omega : r < 8 * (n + 1) ∧ c < 128)]
      · rw [if_neg hA, if_neg (by omega)]

theorem decodeFrame_apply {α : Type} (fg bg : α) (buf : List Nat)
    (mv : Nat → Nat → α) (r c : Nat) (hr : r < 64) (hc : c < 128) :
    OLEDSimulator.decodeFrame fg bg buf mv r c =
    if (buf.getD (r / 8 * 128 + c) 0).testBit (r % 8) then fg else bg := by
  rw [OLEDSimulator.decodeFrame, bandFoldAux, if_pos (by omega : r < 8 * 8 ∧ c < 128)]

theorem isEmpty_false_of_pos {α : Type} {l : List α} (h : 0 < l.length) :
    l.isEmpty = false := by
  cases l with
  | nil => simp at h
  | cons a t => rfl

/-- C2: for every read on the monochrome display channel that returns more
than 1024 bytes, the decoder's result equals decoding the trailing 1024-byte
slice alone — all earlier bytes have no effect on the pixel state. -/
theorem C2_trailing_1024 {α : Type} (fg bg : α) (mv : Nat → Nat → α)
    (data : List Nat) (h : 1024 < data.length) :
    OLEDSimulator.new_contents fg bg mv data =
    OLEDSimulator.new_contents fg bg mv (data.drop (data.length - 1024)) := by
  have hne : data.isEmpty = false := isEmpty_false_of_pos (by omega)
  have hlen2 : (data.drop (data.length - 1024)).length = 1024 := by
    rw [List.length_drop]; omega
  have hne2 : (data.drop (data.length - 1024)).isEmpty = false :=
    isEmpty_false_of_pos (by rw [hlen2]; omega)
  simp [OLEDSimulator.new_contents, hne, hne2, hlen2]

/-- Witness for C2 at a concrete 2048-byte read whose two 1024-byte halves
differ (all 255 then all 0). -/
theorem C2_witness :
    OLEDSimulator.new_contents (1 : Nat) 0 (fun _ _ => 0)
      (List.replicate 1024 255 ++ List.replicate 1024 0) =
    OLEDSimulator.new_contents (1 : Nat) 0 (fun _ _ => 0)
      ((List.replicate 1024 255 ++ List.replicate 1024 0).drop
        ((List.replicate 1024 255 ++ List.replicate 1024 0).length - 1024)) :=
  C2_trailing_1024 1 0 (fun _ _ => 0) (List.replicate 1024 255 ++ List.replicate 1024 0)
    (by simp only [List.length_append, List.length_replicate]; omega)

/-- C3: for a 1024-byte frame accepted by the monochrome decoder, the pixel
at row `r < 64`, column `c < 128` is foreground exactly when bit `r % 8`
(LSB first) of frame byte `(r / 8) * 128 + c` is set — bands of 8 rows top to
bottom, row within band, column left to right. -/
theorem C3_pixel_layout {α : Type} (fg bg : α) (mv : Nat → Nat → α)
    (data : List Nat) (pb : Nat → Nat → α) (r c : Nat)
    (hok : OLEDSimulator.new_contents fg bg mv data = Except.ok pb)
    (hlen : data.length = 1024) (hr : r < 64) (hc : c < 128) :
    pb r c = if (data.getD (r / 8 * 128 + c) 0).testBit (r % 8) then fg else bg := by
  have hne : data.isEmpty = false := isEmpty_false_of_pos (by omega)
  simp only [OLEDSimulator.new_contents, hne, Bool.false_eq_true, if_false, hlen,
    Nat.sub_self, List.drop_zero, if_pos] at hok
  rw [Except.ok.injEq] at hok
  rw [← hok, decodeFrame_apply fg bg data mv r c hr hc]

/-- Witness for C3: the all-zero 1024-byte frame decodes pixel (0,0) to the
background colour. -/
theorem C3_witness :
    OLEDSimulator.decodeFrame (1 : Nat) 0 (List.replicate 1024 0) (fun _ _ => 2) 0 0 =
    if ((List.replicate 1024 (0 : Nat)).getD (0 / 8 * 128 + 0) 0).testBit (0 % 8)
      then 1 else 0 :=
  C3_pixel_layout 1 0 (fun _ _ => 2) (List.replicate 1024 0)
    (OLEDSimulator.decodeFrame 1 0 (List.replicate 1024 0) (fun _ _ => 2)) 0 0
    rfl (by simp) (by omega) (by omega)

/-- C4: the monochrome decoder is a no-op on an empty read, fails with the
frame-length protocol error exactly when the read is non-empty but shorter
than 1024 bytes, and succeeds (decoding the trailing 1024-byte slice) on any
read of at least 1024 bytes. -/
theorem C4_mono_framing {α : Type} (fg bg : α) (mv : Nat → Nat → α) :
    OLEDSimulator.new_contents fg bg mv [] = Except.ok mv ∧
    (∀ data : List Nat, 0 < data.length → data.length < 1024 →
      OLEDSimulator.new_contents fg bg mv data = Except.error ProtoErr.monoFrameLen) ∧
    (∀ data : List Nat, 1024 ≤ data.length →
      OLEDSimulator.new_contents fg bg mv data =
        Except.ok (OLEDSimulator.decodeFrame fg bg (data.drop (data.length - 1024)) mv)) := by
  refine ⟨rfl, ?_, ?_⟩
  · intro data h1 h2
    have hne : data.isEmpty = false := isEmpty_false_of_pos h1
    have hd : (data.drop (data.length - 1024)).length = data.length := by
      rw [List.length_drop]; omega
    simp only [OLEDSimulator.new_contents, hne, Bool.false_eq_true, if_false, hd]
    rw [if_neg (by omega)]
  · intro data h1
    have hne : data.isEmpty = false := isEmpty_false_of_pos (by omega)
    have hd : (data.drop (data.length - 1024)).length = 1024 := by
      rw [List.length_drop]; omega
    simp only [OLEDSimulator.new_contents, hne, Bool.false_eq_true, if_false, hd, if_pos]

/-- Witness for C4: a 1-byte read fails with the frame-length error, and a
1024-byte read succeeds. -/
theorem C4_witness :
    OLEDSimulator.new_contents (1 : Nat) 0 (fun _ _ => 0) [7] =
      Except.error ProtoErr.monoFrameLen ∧
    OLEDSimulator.new_contents (1 : Nat) 0 (fun _ _ => 0) (List.replicate 1024 0) =
      Except.ok (OLEDSimulator.decodeFrame 1 0
        ((List.replicate 1024 (0 : Nat)).drop ((List.replicate 1024 (0 : Nat)).length - 1024))
        (fun _ _ => 0)) :=
  ⟨(C4_mono_framing 1 0 (fun _ _ => 0)).2.1 [7] (by simp) (by simp),
   (C4_mono_framing 1 0 (fun _ _ => 0)).2.2 (List.replicate 1024 0) (by simp)⟩

/-! ## Indexed (LCD) decoder -/

theorem foldl_const {α β : Type} (l : List β) (m : α) :
    l.foldl (fun acc _ => acc) m = m := by
  induction l generalizing m with
  | nil => rfl
  | cons a t ih => simp only [List.foldl_cons]; exact ih m

theorem writeRect_degenerate {α : Type} (pal : Nat → α) (X Y w h : Nat)
    (here : List Nat) (mv : Nat → Nat → α) (hwh : w = 0 ∨ h = 0) :
    LCDSimulator.writeRect pal X Y w h here mv = mv := by
  cases hwh with
  | inl hw =>
    subst hw
    simp only [LCDSimulator.writeRect, List.range_zero, List.foldl_nil]
    exact foldl_const _ mv
  | inr hh =>
    subst hh
    simp only [LCDSimulator.writeRect, List.range_zero, List.foldl_nil]

/-- C5 (amended): for the indexed decoder, a record whose header passes the
bounds checks and has `w = 0` or `h = 0` changes no pixel, raises no error,
and decoding continues with the next record; a record with `X+w > 320`
raises the X-bound protocol error, one with `Y+h > 240` the Y-bound error,
one whose payload read returns fewer than `w*h` bytes the payload-length
error; an empty header read cleanly ends the batch.  (The amendment: the
degenerate-record no-op additionally requires the bounds checks to pass —
see the counterexample, where `w = 0` but `X > 320` still aborts.) -/
theorem C5_amended_indexed_records {α : Type} (pal : Nat → α) (mv : Nat → Nat → α)
    (b0 b1 b2 b3 b4 b5 b6 b7 : Nat) (rest : List Nat) (fuel : Nat) :
    ((b4 + 256 * b5 = 0 ∨ b6 + 256 * b7 = 0) →
      b0 + 256 * b1 + (b4 + 256 * b5) ≤ 320 →
      b2 + 256 * b3 + (b6 + 256 * b7) ≤ 240 →
      LCDSimulator.loopF pal (fuel + 1) mv
          (b0 :: b1 :: b2 :: b3 :: b4 :: b5 :: b6 :: b7 :: rest) =
        LCDSimulator.loopF pal fuel mv rest) ∧
    (320 < b0 + 256 * b1 + (b4 + 256 * b5) →
      LCDSimulator.loopF pal (fuel + 1) mv
          (b0 :: b1 :: b2 :: b3 :: b4 :: b5 :: b6 :: b7 :: rest) =
        Except.error ProtoErr.rectX) ∧
    (b0 + 256 * b1 + (b4 + 256 * b5) ≤ 320 →
      240 < b2 + 256 * b3 + (b6 + 256 * b7) →
      LCDSimulator.loopF pal (fuel + 1) mv
          (b0 :: b1 :: b2 :: b3 :: b4 :: b5 :: b6 :: b7 :: rest) =
        Except.error ProtoErr.rectY) ∧
    (b0 + 256 * b1 + (b4 + 256 * b5) ≤ 320 →
      b2 + 256 * b3 + (b6 + 256 * b7) ≤ 240 →
      rest.length < (b4 + 256 * b5) * (b6 + 256 * b7) →
      LCDSimulator.loopF pal (fuel + 1) mv
          (b0 :: b1 :: b2 :: b3 :: b4 :: b5 :: b6 :: b7 :: rest) =
        Except.error ProtoErr.payloadLen) ∧
    LCDSimulator.new_contents pal mv [] = Except.ok mv := by
  refine ⟨?_, ?_, ?_, ?_, rfl⟩
  · intro hwh hx hy
    have hsz : (b4 + 256 * b5) * (b6 + 256 * b7) = 0 := by
      rcases hwh with h | h <;> rw [h] <;> simp
    simp only [LCDSimulator.loopF, List.take_succ_cons, List.take_zero,
      List.drop_succ_cons, List.drop_zero, List.isEmpty_cons, Bool.false_eq_true,
      if_false, hsz, List.take_zero, List.length_nil]
    rw [if_pos hx, if_pos hy]
    simp only [if_true]
    rw [writeRect_degenerate _ _ _ _ _ _ _ (by omega)]
  · intro hx
    simp only [LCDSimulator.loopF, List.take_succ_cons, List.take_zero,
      List.drop_succ_cons, List.drop_zero, List.isEmpty_cons, Bool.false_eq_true,
      if_false]
    rw [if_neg (by omega)]
  · intro hx hy
    simp only [LCDSimulator.loopF, List.take_succ_cons, List.take_zero,
      List.drop_succ_cons, List.drop_zero, List.isEmpty_cons, Bool.false_eq_true,
      if_false]
    rw [if_pos hx, if_neg (by omega)]
  · intro hx hy hlen
    simp only [LCDSimulator.loopF, List.take_succ_cons, List.take_zero,
      List.drop_succ_cons, List.drop_zero, List.isEmpty_cons, Bool.false_eq_true,
      if_false, List.length_take]
    rw [if_pos hx, if_pos hy, if_neg (by omega)]

/-- Counterexample to C5 as stated: the record header
`[144, 1, 0, 0, 0, 0, 5, 0]` has width field 0 (bytes 4 and 5), yet the
decoder raises the X-bound framing error (X = 400, X + w = 400 > 320)
instead of being a degenerate no-op. -/
theorem C5_counterexample :
    LCDSimulator.new_contents (fun n : Nat => n) (fun _ _ => 0)
      [144, 1, 0, 0, 0, 0, 5, 0] = Except.error ProtoErr.rectX := rfl

/-- Witness for C5 (amended): the all-zero in-bounds degenerate record is
consumed without error or pixel change, and an in-bounds 1x1 record with an
empty payload read raises the payload-length error. -/
theorem C5_witness :
    LCDSimulator.loopF (fun n : Nat => n) 1 (fun _ _ => 0)
        [0, 0, 0, 0, 0, 0, 0, 0] =
      LCDSimulator.loopF (fun n : Nat => n) 0 (fun _ _ => 0) [] ∧
    LCDSimulator.loopF (fun n : Nat => n) 1 (fun _ _ => 0)
        [0, 0, 0, 0, 1, 0, 1, 0] = Except.error ProtoErr.payloadLen :=
  ⟨(C5_amended_indexed_records (fun n : Nat => n) (fun _ _ => 0)
      0 0 0 0 0 0 0 0 [] 0).1 (by omega) (by omega) (by omega),
   (C5_amended_indexed_records (fun n : Nat => n) (fun _ _ => 0)
      0 0 0 0 1 0 1 0 [] 0).2.2.2.1 (by omega) (by omega) (by simp)⟩

/-- C10: on the large-keypad (LCD, 320x240) variant, `click_to_key` returns
`None` for every click coordinate — no mouse click produces a device key. -/
theorem C10_lcd_click_none : ∀ x y : Int, LCDSimulator.click_to_key x y = none :=
  fun _ _ => rfl

/-! ## LED status decoder -/

/-- C6: for every status byte, the active-LED mask is the bitwise AND of the
high nibble and the low nibble; in particular 0x00 gives the empty mask,
0xF1 only bit 0, and 0x12 the empty mask. -/
theorem C6_led_mask :
    (∀ c : Nat, led_active_set c = (c / 16 % 16) &&& (c % 16)) ∧
    led_active_set 0x00 = 0 ∧ led_active_set 0xF1 = 1 ∧ led_active_set 0x12 = 0 := by
  refine ⟨?_, by decide, by decide, by decide⟩
  intro c
  show ((c >>> 4) &&& 0xf) &&& (c &&& 0xf) = (c / 16 % 16) &&& (c % 16)
  have h2 : ∀ m : Nat, m &&& 15 = m % 16 := by
    intro m
    have := Nat.and_pow_two_sub_one_eq_mod m 4
    norm_num at this
    exact this
  have h1 : c >>> 4 = c / 16 := by
    rw [Nat.shiftRight_eq_div_pow]
  simp only [h1, h2]

/-! ## Pressed-key state machine -/

/-- C9: a mouse-button-up event releases every currently pressed key — in any
iteration order of the set snapshot — leaving the pressed set empty and
writing exactly one all-up marker byte when the set was non-empty, nothing
when it was already empty. -/
theorem C9_mouse_up_release :
    (∀ (st l : List Nat), st.Perm l →
      (release_all st l).1 = [] ∧
      (release_all st l).2 = if st = [] then ([] : List Nat) else [0]) ∧
    (∀ (is_q1 : Bool) (qc : Q1Chars) (st : List Nat),
      handle_event is_q1 qc SEvent.mouseUp st =
        some ⟨[], if st = [] then [] else [0], false, []⟩) := by
  have main : ∀ (l st : List Nat), st.Perm l →
      (release_all st l).1 = [] ∧
      (release_all st l).2 = if st = [] then ([] : List Nat) else [0] := by
    intro l
    induction l with
    | nil =>
      intro st h
      have hst : st = [] := List.eq_nil_of_length_eq_zero (by simpa using h.length_eq)
      subst hst
      exact ⟨rfl, by simp [release_all]⟩
    | cons c l2 ih =>
      intro st h
      have hstne : st ≠ [] := by
        intro he; subst he
        have := h.length_eq; simp at this
      have hperm2 : (st.erase c).Perm l2 := by
        have h3 := h.erase c
        rwa [List.erase_cons_head] at h3
      have hr : send_event st c false = (st.erase c, if st.erase c = [] then [0] else []) := rfl
      obtain ⟨ih1, ih2⟩ := ih (st.erase c) hperm2
      refine ⟨?_, ?_⟩
      · simp only [release_all, hr]
        exact ih1
      · simp only [release_all, hr]
        rw [ih2, if_neg hstne]
        by_cases he : st.erase c = [] <;> simp [he]
  refine ⟨fun st l h => main l st h, ?_⟩
  intro is_q1 qc st
  obtain ⟨h1, h2⟩ := main st st (List.Perm.refl st)
  simp only [handle_event]
  rw [h1, h2]

/-- Witness for C9 at the pressed set containing the x and y keys, released
in the opposite order. -/
theorem C9_witness :
    (release_all [120, 121] [121, 120]).1 = [] ∧
    (release_all [120, 121] [121, 120]).2 =
      if ([120, 121] : List Nat) = [] then [] else [0] :=
  C9_mouse_up_release.1 [120, 121] [121, 120] (by decide)

/-- Counterexample to C7 as stated: processing a single up-event for a key
that is not pressed (pressed set empty throughout) writes one all-up marker
byte although the set never transitions from non-empty to empty — the
sentinel is not emitted "exactly once when the set becomes empty". -/
theorem C7_counterexample :
    sentinel_count (run_events [] [(120, false)]).2 = 1 ∧
    empty_transitions [] [(120, false)] = 0 := by decide

/-- C7 (amended): a key is added and its code written only on a down-edge for
a key not already pressed (repeat downs write nothing and change nothing), a
key leaves the set on its up-edge, and — for traces in which every up-edge
releases a currently pressed key (and key codes are non-zero, as all device
codes are) — the all-up marker is written exactly once per transition of the
pressed set from non-empty to empty; the x-then-y press/release scenario
writes exactly one code per key and one marker, after the second release
only.  (The amendment restricts the marker-counting clause to traces without
spurious up-edges: an up-event for an unpressed key with the set already
empty writes an extra marker, see the counterexample.) -/
theorem C7_amended_keystate :
    (∀ (st : List Nat) (ch : Nat), ch ∈ st → send_event st ch true = (st, [])) ∧
    (∀ (st : List Nat) (ch : Nat), ch ∉ st → send_event st ch true = (st ++ [ch], [ch])) ∧
    (∀ (st : List Nat) (ch : Nat), (send_event st ch false).1 = st.erase ch) ∧
    (∀ (st : List Nat) (evs : List (Nat × Bool)), good_trace st evs = true →
      sentinel_count (run_events st evs).2 = empty_transitions st evs) ∧
    run_events [] [(120, true), (121, true), (120, false), (121, false)] =
      ([], [120, 121, 0]) ∧
    run_events [] [(120, true), (121, true), (121, false), (120, false)] =
      ([], [120, 121, 0]) := by
  have sc_append : ∀ a b : List Nat,
      sentinel_count (a ++ b) = sentinel_count a + sentinel_count b := by
    intro a b
    simp [sentinel_count]
  refine ⟨?_, ?_, ?_, ?_, by decide, by decide⟩
  · intro st ch h
    simp [send_event, h]
  · intro st ch h
    simp [send_event, h]
  · intro st ch
    simp [send_event]
  · intro st evs
    induction evs generalizing st with
    | nil =>
      intro _
      simp [run_events, sentinel_count, empty_transitions]
    | cons ev rest ih =>
      obtain ⟨ch, d⟩ := ev
      intro hg
      rw [good_trace, Bool.and_eq_true] at hg
      obtain ⟨hg1, hg2⟩ := hg
      cases d with
      | true =>
        have hne : ch ≠ 0 := by simpa using hg1
        by_cases hmem : ch ∈ st
        · have hse : send_event st ch true = (st, []) := by simp [send_event, hmem]
          rw [hse] at hg2
          simp only [run_events, empty_transitions, hse, List.nil_append]
          rw [if_neg (fun hh => hh.1 hh.2)]
          simp only [Nat.zero_add]
          exact ih st hg2
        · have hse : send_event st ch true = (st ++ [ch], [ch]) := by
            simp [send_event, hmem]
          rw [hse] at hg2
          simp only [run_events, empty_transitions, hse]
          rw [sc_append, if_neg (by simp)]
          have hch : sentinel_count [ch] = 0 := by simp [sentinel_count, hne]
          rw [hch]
          simp only [Nat.zero_add]
          exact ih (st ++ [ch]) hg2
      | false =>
        have hmem : ch ∈ st := by simpa using hg1
        have hstne : st ≠ [] := List.ne_nil_of_mem hmem
        have hse : send_event st ch false =
            (st.erase ch, if st.erase ch = [] then [0] else []) := rfl
        rw [hse] at hg2
        simp only [run_events, empty_transitions, hse]
        by_cases he : st.erase ch = []
        · rw [if_pos he, if_pos ⟨hstne, he⟩, sc_append]
          have h0 : sentinel_count [0] = 1 := by decide
          rw [h0, ih (st.erase ch) hg2]
        · rw [if_neg he, if_neg (fun hh => he hh.2), sc_append]
          have h0 : sentinel_count ([] : List Nat) = 0 := rfl
          rw [h0]
          simp only [Nat.zero_add]
          exact ih (st.erase ch) hg2

/-- Witness for C7 (amended): repeat suppression on a pressed key, the fresh
down-edge write, the up-edge erase, and the marker count on a concrete good
trace. -/
theorem C7_witness :
    send_event [120] 120 true = ([120], []) ∧
    send_event [] 120 true = ([120], [120]) ∧
    (send_event [120] 120 false).1 = List.erase [120] 120 ∧
    sentinel_count (run_events [] [(120, true), (120, false)]).2 =
      empty_transitions [] [(120, true), (120, false)] :=
  ⟨C7_amended_keystate.1 [120] 120 (by decide),
   C7_amended_keystate.2.1 [] 120 (by decide),
   C7_amended_keystate.2.2.1 [120] 120,
   C7_amended_keystate.2.2.2.1 [] [(120, true), (120, false)] (by decide)⟩

/-! ## Key handler and session-level byte traffic -/

theorem send_event_out (st : List Nat) (c : Nat) (d : Bool) (b : Nat)
    (hb : b ∈ (send_event st c d).2) : b = 0 ∨ b = c := by
  cases d with
  | true =>
    by_cases hc : c ∈ st
    · rw [show send_event st c true = (st, []) from by simp [send_event, hc]] at hb
      simp at hb
    · rw [show send_event st c true = (st ++ [c], [c]) from by simp [send_event, hc]] at hb
      simp at hb
      right; exact hb
  | false =>
    by_cases he : st.erase c = []
    · rw [show send_event st c false = (st.erase c, [0]) from by simp [send_event, he]] at hb
      simp at hb
      left; exact hb
    · rw [show send_event st c false = (st.erase c, []) from by simp [send_event, he]] at hb
      simp at hb

theorem send_event_up_out (st : List Nat) (c : Nat) (b : Nat)
    (hb : b ∈ (send_event st c false).2) : b = 0 := by
  by_cases he : st.erase c = []
  · rw [show send_event st c false = (st.erase c, [0]) from by simp [send_event, he]] at hb
    simpa using hb
  · rw [show send_event st c false = (st.erase c, []) from by simp [send_event, he]] at hb
    simp at hb

theorem release_all_out (l st : List Nat) (b : Nat) (hb : b ∈ (release_all st l).2) :
    b = 0 := by
  induction l generalizing st with
  | nil => simp [release_all] at hb
  | cons c l2 ih =>
    simp only [release_all] at hb
    rw [List.mem_append] at hb
    rcases hb with hb | hb
    · exact send_event_up_out st c b hb
    · exact ih _ hb

theorem ctrl_m_bytes_mem : ∀ b ∈ ctrl_m_bytes, b = 121 ∨ b = 10 := by decide

theorem click_chars_sub : ∀ i : Nat, i < 12 → click_chars.getD i 0 ∈ mk4_alphabet := by
  decide

theorem click_to_key_mem (x y : Int) (c : Nat)
    (h : OLEDSimulator.click_to_key x y = some c) : c ∈ mk4_alphabet := by
  simp only [OLEDSimulator.click_to_key] at h
  split at h
  · split at h
    · rename_i hrow hcol
      have hidx : ((y - 216).fdiv 73 * 3 + (x - 52).fdiv 73).toNat < 12 := by omega
      obtain rfl := Option.some.inj h
      exact click_chars_sub _ hidx
    · exact Option.noConfusion h
  · exact Option.noConfusion h

theorem handle_key_no_action (is_q1 : Bool) (qc : Q1Chars) (sym mod : Nat) (d : Bool)
    (st : List Nat) (r : HandleResult) (hcd : ¬(mod = 0x40 ∧ d = true))
    (h : handle_key is_q1 qc sym mod d st = some r) :
    r.actions = [] ∧ r.quit = false := by
  simp only [handle_key] at h
  split at h
  · obtain rfl := Option.some.inj h
    exact ⟨rfl, rfl⟩
  · rw [if_neg hcd] at h
    split at h
    · obtain rfl := Option.some.inj h
      exact ⟨rfl, rfl⟩
    · split at h
      · split at h
        · exact Option.noConfusion h
        · split at h
          · obtain rfl := Option.some.inj h
            exact ⟨rfl, rfl⟩
          · obtain rfl := Option.some.inj h
            exact ⟨rfl, rfl⟩
      · split at h
        · exact Option.noConfusion h
        · obtain rfl := Option.some.inj h
          exact ⟨rfl, rfl⟩

theorem handle_key_out_mk4 (qc : Q1Chars) (sym mod : Nat) (d : Bool) (st : List Nat)
    (r : HandleResult) (h : handle_key false qc sym mod d st = some r) :
    r.out = [] ∨ r.out = ctrl_m_bytes ∨
      ∃ c, c ∈ mk4_alphabet ∧ r.out = (send_event st c d).2 := by
  simp only [handle_key] at h
  split at h
  · obtain rfl := Option.some.inj h
    left; rfl
  · split at h
    · split at h
      · obtain rfl := Option.some.inj h
        left; rfl
      · split at h
        · obtain rfl := Option.some.inj h
          left; rfl
        · split at h
          · obtain rfl := Option.some.inj h
            left; rfl
          · split at h
            · obtain rfl := Option.some.inj h
              left; rfl
            · split at h
              · obtain rfl := Option.some.inj h
                right; left; rfl
              · obtain rfl := Option.some.inj h
                left; rfl
    · split at h
      · obtain rfl := Option.some.inj h
        left; rfl
      · simp only [if_true] at h
        split at h
        · exact Option.noConfusion h
        · rename_i c hc2
          split at h
          · rename_i hcmem
            obtain rfl := Option.some.inj h
            right; right
            exact ⟨c, hcmem, rfl⟩
          · obtain rfl := Option.some.inj h
            left; rfl

theorem handle_event_out_mk4 (qc : Q1Chars) (ev : SEvent) (st : List Nat)
    (r : HandleResult) (h : handle_event false qc ev st = some r) (b : Nat)
    (hb : b ∈ r.out) : b = 0 ∨ b = 10 ∨ b ∈ mk4_alphabet := by
  cases ev with
  | key sym mod d =>
    rcases handle_key_out_mk4 qc sym mod d st r h with ho | ho | ⟨c, hc, ho⟩
    · rw [ho] at hb
      simp at hb
    · rw [ho] at hb
      rcases ctrl_m_bytes_mem b hb with h1 | h1
      · right; right
        rw [h1]
        decide
      · right; left
        exact h1
    · rw [ho] at hb
      rcases send_event_out st c d b hb with h1 | h1
      · left; exact h1
      · right; right
        rw [h1]
        exact hc
  | mouseDown x y =>
    simp only [handle_event, Bool.false_eq_true, if_false] at h
    split at h
    · rename_i c hc
      obtain rfl := Option.some.inj h
      rcases send_event_out st c true b hb with h1 | h1
      · left; exact h1
      · right; right
        rw [h1]
        exact click_to_key_mem x y c hc
    · obtain rfl := Option.some.inj h
      simp at hb
  | mouseUp =>
    simp only [handle_event] at h
    obtain rfl := Option.some.inj h
    left
    exact release_all_out st st b hb
  | quitEv =>
    simp only [handle_event] at h
    obtain rfl := Option.some.inj h
    simp at hb

/-- C8: control actions (quit, NFC dump, snapshot, movie start/stop) are
dispatched only on a key-down event with the control accelerator
(`mod == 0x40`) held; a key-up with control held dispatches no action and
writes nothing; control+q on a down-edge yields the quit action and on an
up-edge nothing. -/
theorem C8_control_actions :
    (∀ (is_q1 : Bool) (qc : Q1Chars) (sym mod : Nat) (d : Bool) (st : List Nat)
        (r : HandleResult),
      handle_key is_q1 qc sym mod d st = some r →
      (r.actions ≠ [] ∨ r.quit = true) → mod = 0x40 ∧ d = true) ∧
    (∀ (is_q1 : Bool) (qc : Q1Chars) (sym : Nat) (st : List Nat),
      handle_key is_q1 qc sym 0x40 false st = some ⟨st, [], false, []⟩) ∧
    (∀ (qc : Q1Chars) (st : List Nat),
      handle_key false qc 113 0x40 true st = some ⟨st, [], true, [CtlAction.quit]⟩) ∧
    (∀ (qc : Q1Chars) (st : List Nat),
      handle_key false qc 113 0x40 false st = some ⟨st, [], false, []⟩) := by
  refine ⟨?_, ?_, fun qc st => rfl, fun qc st => rfl⟩
  · intro is_q1 qc sym mod d st r h har
    by_cases hcd : mod = 0x40 ∧ d = true
    · exact hcd
    · obtain ⟨ha, hq⟩ := handle_key_no_action is_q1 qc sym mod d st r hcd h
      rcases har with h1 | h1
      · exact absurd ha h1
      · rw [hq] at h1
        exact Bool.noConfusion h1
  · intro is_q1 qc sym st
    simp only [handle_key]
    split
    · rfl
    · simp only [if_true]
      rw [if_neg (by simp)]

/-- Witness for C8: control+q down dispatches the quit action (and the
only-on-down direction instantiated there), control+q up dispatches nothing
and writes nothing. -/
theorem C8_witness :
    ((0x40 : Nat) = 0x40 ∧ true = true) ∧
    handle_key false ⟨0, 0, 0, fun _ => none⟩ 113 0x40 false [] =
      some ⟨[], [], false, []⟩ :=
  ⟨C8_control_actions.1 false ⟨0, 0, 0, fun _ => none⟩ 113 0x40 true []
      ⟨[], [], true, [CtlAction.quit]⟩ rfl (Or.inr rfl),
   C8_control_actions.2.1 false ⟨0, 0, 0, fun _ => none⟩ 113 []⟩

/-- Counterexample to C1 as stated: the control+'m' macro (a key-down event
for 'm' with mod = 0x40) leaves the pressed set empty and unchanged — no
key-down transition, no all-up transition — yet writes bytes to the key-out
channel, among them the newline byte 10, which is neither the all-up marker
0 nor a device key code. -/
theorem C1_counterexample :
    (run_session false ⟨0, 0, 0, fun _ => none⟩ [SEvent.key 109 0x40 true] []).1 = [] ∧
    (10 : Nat) ∈ (run_session false ⟨0, 0, 0, fun _ => none⟩ [SEvent.key 109 0x40 true] []).2 ∧
    ¬((10 : Nat) = 0 ∨ (10 : Nat) ∈ mk4_alphabet) := by decide

/-- C1 (amended): over any session run on the Mk4 (small-keypad) variant,
every byte written to the key-out channel is the all-up marker 0, a device
key code from the alphabet '0123456789xy', or one of the bytes written by
the control+'m' convenience macro ('y' = 121, again in the alphabet, and
newline = 10).  (The amendment: the original claim omitted the control+'m'
macro bytes; it is also the macro, not a key transition, that emits them.) -/
theorem C1_amended_key_out_bytes :
    ∀ (qc : Q1Chars) (evs : List SEvent) (st : List Nat) (b : Nat),
      b ∈ (run_session false qc evs st).2 → b = 0 ∨ b = 10 ∨ b ∈ mk4_alphabet := by
  intro qc evs
  induction evs with
  | nil =>
    intro st b hb
    simp [run_session] at hb
  | cons ev rest ih =>
    intro st b hb
    simp only [run_session] at hb
    split at hb
    · simp at hb
    · rename_i r hr
      split at hb
      · exact handle_event_out_mk4 qc ev st r hr b hb
      · rw [List.mem_append] at hb
        rcases hb with hb | hb
        · exact handle_event_out_mk4 qc ev st r hr b hb
        · exact ih r.st b hb

/-- Witness for C1 (amended) at the control+'m' session of the
counterexample: the newline byte it writes is in the amended byte set. -/
theorem C1_witness :
    (10 : Nat) = 0 ∨ (10 : Nat) = 10 ∨ (10 : Nat) ∈ mk4_alphabet :=
  C1_amended_key_out_bytes ⟨0, 0, 0, fun _ => none⟩ [SEvent.key 109 0x40 true] [] 10
    (by decide)
